import Mathlib

/-!
# Verification of the frui render-tree paint context and alignment geometry

Shallow embedding of two source files of the `frui` UI toolkit:

* `crates/frui_core/src/api/contexts/render_ctx/paint_ctx.rs` — the paint
  traversal context (`PaintContextOS`): offset bookkeeping, child derivation,
  the layout-before-paint assertion, and the type-erased parent-data slot.
* `crates/frui_widgets/src/flex/alignment.rs` — `Alignment` and
  `AlignmentDirectional` value types and their geometry.

Modelling conventions: Rust `f64` components are embedded as exact rationals
(`ℚ`); the arithmetic used by the source (add, sub, neg, halving) is exact on
the values of interest. Fatal failures (`assert!`, `expect`) are embedded as
`Except.error` carrying the source's panic message; recoverable absence
(`Option`) stays `Option`. Tree nodes are addressed by the path of child
indices from the root, which models Rust's identity-preserving
`WidgetNodeRef` handles.
-/

namespace Frui

/-- Geometry value type `Offset` (x, y), componentwise arithmetic.
Modelled from the spec: the concrete `Offset` struct lives in the excluded
geometry module; the spec describes it as a plain value type with
componentwise arithmetic, `f64` components embedded as `ℚ`. -/
structure Offset where
  x : ℚ
  y : ℚ
deriving DecidableEq, Repr

instance : Sub Offset := ⟨fun a b => ⟨a.x - b.x, a.y - b.y⟩⟩

instance : Add Offset := ⟨fun a b => ⟨a.x + b.x, a.y + b.y⟩⟩

/-- `Offset::default()` — the zero offset, used by `Cell::default()`. -/
instance : Inhabited Offset := ⟨⟨0, 0⟩⟩

/-- Geometry value type `Size` (width, height).
Modelled from the spec: plain value type from the excluded geometry module. -/
structure Size where
  width : ℚ
  height : ℚ
deriving DecidableEq, Repr

/-- `TextDirection` with its two variants, as matched on in
`alignment.rs` (`TextDirection::Ltr`, `TextDirection::Rtl`). -/
inductive TextDirection where
  | ltr
  | rtl
deriving DecidableEq, Repr

/-- `Alignment { x: f64, y: f64 }` from `alignment.rs`. -/
structure Alignment where
  x : ℚ
  y : ℚ
deriving DecidableEq, Repr

/-- `impl AlignmentGeometry for Alignment`: `resolve` ignores the text
direction and returns `*self`. -/
def Alignment.resolve (a : Alignment) (_ : TextDirection) : Alignment := a

/-- `Alignment::along`: `center + self * center` componentwise, where
`center = size / 2`. -/
def Alignment.along (a : Alignment) (size : Size) : Offset :=
  let center_x := size.width / 2
  let center_y := size.height / 2
  ⟨center_x + a.x * center_x, center_y + a.y * center_y⟩

def Alignment.TOP_LEFT : Alignment := ⟨-1, -1⟩

def Alignment.TOP_CENTER : Alignment := ⟨0, -1⟩

def Alignment.TOP_RIGHT : Alignment := ⟨1, -1⟩

def Alignment.CENTER_LEFT : Alignment := ⟨-1, 0⟩

def Alignment.CENTER : Alignment := ⟨0, 0⟩

def Alignment.CENTER_RIGHT : Alignment := ⟨1, 0⟩

def Alignment.BOTTOM_LEFT : Alignment := ⟨-1, 1⟩

def Alignment.BOTTOM_CENTER : Alignment := ⟨0, 1⟩

def Alignment.BOTTOM_RIGHT : Alignment := ⟨1, 1⟩

/-- `impl Add for Alignment`: componentwise. -/
def Alignment.add (a b : Alignment) : Alignment := ⟨a.x + b.x, a.y + b.y⟩

/-- `impl Sub for Alignment`: componentwise. -/
def Alignment.sub (a b : Alignment) : Alignment := ⟨a.x - b.x, a.y - b.y⟩

/-- `impl Neg for Alignment`: componentwise. -/
def Alignment.neg (a : Alignment) : Alignment := ⟨-a.x, -a.y⟩

instance : Add Alignment := ⟨Alignment.add⟩

instance : Sub Alignment := ⟨Alignment.sub⟩

instance : Neg Alignment := ⟨Alignment.neg⟩

/-- `AlignmentDirectional { start: f64, y: f64 }` from `alignment.rs`. -/
structure AlignmentDirectional where
  start : ℚ
  y : ℚ
deriving DecidableEq, Repr

/-- `impl AlignmentGeometry for AlignmentDirectional`: left-to-right keeps
the sign of `start`, right-to-left negates it. -/
def AlignmentDirectional.resolve (a : AlignmentDirectional)
    (text_direction : TextDirection) : Alignment :=
  let start :=
    match text_direction with
    | TextDirection.ltr => a.start
    | TextDirection.rtl => -a.start
  ⟨start, a.y⟩

def AlignmentDirectional.TOP_START : AlignmentDirectional := ⟨-1, -1⟩

def AlignmentDirectional.CENTER_START : AlignmentDirectional := ⟨-1, 0⟩

def AlignmentDirectional.CENTER_END : AlignmentDirectional := ⟨1, 0⟩

def AlignmentDirectional.BOTTOM_END : AlignmentDirectional := ⟨1, 1⟩

/-! ## The node tree and its render data

The node store (`WidgetNode`, `WidgetNodeRef`, `RenderData`) lives in the
excluded tree module; its shape is modelled from the spec (§3 DATA MODEL) so
that the paint-context operations of `paint_ctx.rs` can be embedded against
it. Node handles are modelled as paths of child indices from the root, which
preserves identity: two handles with the same path resolve to the same node. -/

/-- A small closed universe of concrete Rust types, standing in for
`TypeId`: the type-erased parent-data slot is checked by type identity. -/
inductive TypeRep where
  | tUnit
  | tInt
  | tBool
  | tOffset
deriving DecidableEq, Repr

/-- The Lean type denoted by a `TypeRep`. -/
@[reducible] def TypeRep.interp : TypeRep → Type
  | tUnit => Unit
  | tInt => Int
  | tBool => Bool
  | tOffset => Offset

/-- A type-erased box (`Box<dyn Any>`): a concrete type identity together
with a value of that type. -/
structure AnyBox where
  ty : TypeRep
  val : ty.interp

/-- `Box<dyn Any>::downcast_ref::<T>()`: succeeds exactly when the stored
concrete type identity equals the requested one. -/
def AnyBox.downcast (τ : TypeRep) (b : AnyBox) : Option τ.interp :=
  if h : b.ty = τ then some (h ▸ b.val) else none

/-- Per-node mutable render state.
Modelled from the spec: `RenderData` is declared in the excluded tree
module; §3 lists its fields `size`, `local_offset`, `laid_out`,
`parent_data` (a type-erased box). -/
structure RenderData where
  size : Size
  local_offset : Offset
  laid_out : Bool
  parent_data : AnyBox

/-- A node of the externally-owned widget tree: its `RenderData` plus the
ordered list of child nodes.
Modelled from the spec: the node store is an external collaborator; §3 and
§6 describe nodes as holding one `RenderData` and an ordered child list. -/
inductive WidgetNode where
  | mk (renderData : RenderData) (childList : List WidgetNode)

/-- The node's render data. -/
def WidgetNode.renderData : WidgetNode → RenderData
  | mk d _ => d

/-- The node's ordered child list (`node.children()`). -/
def WidgetNode.childList : WidgetNode → List WidgetNode
  | mk _ cs => cs

/-- A `WidgetNodeRef`: an identity-preserving lightweight handle to a node,
modelled as the path of child indices from the root. -/
abbrev NodePath : Type := List Nat

/-- Resolve a node handle against the tree: follow the path of child
indices from the root. -/
def getNode : NodePath → WidgetNode → Option WidgetNode
  | [], t => some t
  | i :: p, WidgetNode.mk _ cs =>
    match cs.get? i with
    | some c => getNode p c
    | none => none

/-- Apply `f` to the `RenderData` of the node at the given path, leaving the
tree unchanged when the path is dangling (real handles never dangle). -/
def updateData : NodePath → (RenderData → RenderData) → WidgetNode → WidgetNode
  | [], f, WidgetNode.mk d cs => WidgetNode.mk (f d) cs
  | i :: p, f, WidgetNode.mk d cs =>
    match cs.get? i with
    | some c => WidgetNode.mk d (cs.set i (updateData p f c))
    | none => WidgetNode.mk d cs

/-! ## The runtime-checked borrow discipline of node handles

Modelled from the spec: `WidgetNodeRef::borrow` / `borrow_mut` are defined in
the excluded tree module; §5 requires a `RefCell`-equivalent discipline —
"any number of concurrent shared (read) views are permitted; an exclusive
(write) view requires no other views outstanding; violating this must fail
fatally at the point of violation (not silently corrupt state)". -/

/-- The dynamic borrow state of one node's `RenderData` cell:
no views, `n + 1` outstanding shared views, or one exclusive view. -/
inductive BorrowState where
  | free
  | shared (n : Nat)
  | exclusive
deriving DecidableEq, Repr

/-- Number of views (shared or exclusive) currently outstanding. -/
def BorrowState.viewsOutstanding : BorrowState → Nat
  | free => 0
  | shared n => n + 1
  | exclusive => 1

/-- Whether an exclusive view is currently outstanding. -/
def BorrowState.exclusiveOutstanding : BorrowState → Bool
  | exclusive => true
  | _ => false

/-- Acquire a shared (read) view (`borrow()`): permitted whenever no
exclusive view is outstanding; a conflict fails fatally. -/
def BorrowState.acquireShared : BorrowState → Except String BorrowState
  | BorrowState.free => Except.ok (BorrowState.shared 0)
  | BorrowState.shared n => Except.ok (BorrowState.shared (n + 1))
  | BorrowState.exclusive => Except.error "already mutably borrowed"

/-- Acquire an exclusive (write) view (`borrow_mut()`): permitted only when
no view at all is outstanding; a conflict fails fatally. -/
def BorrowState.acquireExclusive : BorrowState → Except String BorrowState
  | BorrowState.free => Except.ok BorrowState.exclusive
  | BorrowState.shared _ => Except.error "already borrowed"
  | BorrowState.exclusive => Except.error "already borrowed"

/-! ## `PaintContextOS` (paint_ctx.rs) -/

/-- `PaintContextOS { node, offset, parent_offset }`. The two `Cell<Offset>`
fields are value cells: `Cell::clone` copies the current value into a fresh
independent cell, so a derived context's `parent_offset` is a point-in-time
copy of the parent's `offset`. -/
structure PaintContextOS where
  node : NodePath
  offset : Offset
  parent_offset : Offset

/-- `PaintContextOS::new`: binds a node with both offset cells
default-initialized to the zero offset. -/
def PaintContextOS.new (node : NodePath) : PaintContextOS :=
  { node := node, offset := default, parent_offset := default }

/-- The drawing surface handed through `paint`; its primitives are an
external collaborator and carry no state observed by this core. -/
structure Canvas where

/-- `PaintContextOS::paint` up to the trailing dispatch into the widget's own
`paint` (external `RawWidget` code, not part of this core): asserts
`laid_out` (fatal with the source's panic message if false), records the
absolute offset in `self.offset`, and writes
`local_offset = offset - parent_offset` into the node's `RenderData`.
Returns the updated tree and context. -/
def PaintContextOS.paint (root : WidgetNode) (ctx : PaintContextOS)
    (_piet : Canvas) (offset : Offset) :
    Except String (WidgetNode × PaintContextOS) :=
  match getNode ctx.node root with
  | none => Except.error "dangling node reference"
  | some n =>
    if n.renderData.laid_out then
      let ctx' := { ctx with offset := offset }
      let local_offset := offset - ctx.parent_offset
      let root' := updateData ctx.node
        (fun rd => { rd with local_offset := local_offset }) root
      Except.ok (root', ctx')
    else
      Except.error "child was not laid out before paint"

/-- `PaintContextOS::try_child` (crate-private in the source): `None` when
`index` is out of range of the node's child list, otherwise a fresh context
bound to child `index`, its `offset` cell default-initialized and its
`parent_offset` a copy of this context's current `offset`. -/
def PaintContextOS.tryChild (root : WidgetNode) (ctx : PaintContextOS)
    (index : Nat) : Option PaintContextOS :=
  (getNode ctx.node root).bind fun n =>
    (n.childList.get? index).map fun _ =>
      { node := ctx.node ++ [index], offset := default,
        parent_offset := ctx.offset }

/-- Visibility of `try_child` as declared in the source:
`fn try_child(&self, index: usize) -> Option<PaintContextOS>` carries no
`pub` qualifier, so it is private to the paint-context module. -/
def tryChildIsPublic : Bool := false

/-- `PaintContextOS::child`: defined in terms of `try_child`; fails fatally
(`expect`, with the source's panic message) when the index is out of
range. -/
def PaintContextOS.child (root : WidgetNode) (ctx : PaintContextOS)
    (index : Nat) : Except String PaintContextOS :=
  match ctx.tryChild root index with
  | some c => Except.ok c
  | none => Except.error "specified node didn't have any children"

/-- `PaintContextOS::children`: one context per child of the bound node, in
child order, each with a default-initialized `offset` cell and
`parent_offset` a copy of this context's current `offset`. The source
returns a lazy iterator over `self.node.children()`; producing it mutates
nothing, so it is embedded as the (pure) list of its elements. -/
def PaintContextOS.children (root : WidgetNode) (ctx : PaintContextOS) :
    List PaintContextOS :=
  match getNode ctx.node root with
  | none => []
  | some n =>
    (List.range n.childList.length).map fun i =>
      { node := ctx.node ++ [i], offset := default,
        parent_offset := ctx.offset }

/-- `PaintContextOS::size`: the bound node's resolved size. -/
def PaintContextOS.size (root : WidgetNode) (ctx : PaintContextOS) :
    Option Size :=
  (getNode ctx.node root).map fun n => n.renderData.size

/-- `PaintContextOS::try_parent_data::<T>`: view the type-erased
parent-data slot at type `T`; `None` when the stored concrete type identity
differs from `T`. -/
def PaintContextOS.tryParentData (τ : TypeRep) (root : WidgetNode)
    (ctx : PaintContextOS) : Option τ.interp :=
  (getNode ctx.node root).bind fun n => n.renderData.parent_data.downcast τ

/-- `PaintContextOS::try_parent_data_mut::<T>` with the node's dynamic
borrow state made explicit: the source takes two successive `borrow_mut()`
temporaries (each released at the end of its statement), so the access fails
fatally whenever any view is outstanding at entry; otherwise it behaves as
the checked downcast. The returned exclusive view is modelled by its value
(the `RefMut` itself is released by the caller). -/
def PaintContextOS.tryParentDataMut (τ : TypeRep) (root : WidgetNode)
    (ctx : PaintContextOS) (s : BorrowState) :
    Except String (Option τ.interp) := do
  let _ ← s.acquireExclusive
  match getNode ctx.node root with
  | none => Except.error "dangling node reference"
  | some n =>
    match n.renderData.parent_data.downcast τ with
    | none => Except.ok none
    | some v =>
      let _ ← s.acquireExclusive
      Except.ok (some v)

/-- `PaintContextOS::try_parent_data::<T>` with the node's dynamic borrow
state made explicit: both `borrow()` temporaries are shared views, so the
access fails fatally exactly when an exclusive view is outstanding. -/
def PaintContextOS.tryParentDataShared (τ : TypeRep) (root : WidgetNode)
    (ctx : PaintContextOS) (s : BorrowState) :
    Except String (Option τ.interp) := do
  let _ ← s.acquireShared
  match getNode ctx.node root with
  | none => Except.error "dangling node reference"
  | some n =>
    match n.renderData.parent_data.downcast τ with
    | none => Except.ok none
    | some v =>
      let _ ← s.acquireShared
      Except.ok (some v)

/-- `PaintContextOS::set_parent_data::<T>`: overwrite the node's
parent-data slot with a fresh box holding the given value, discarding
whatever was stored before regardless of its type. -/
def PaintContextOS.setParentData (τ : TypeRep) (v : τ.interp)
    (root : WidgetNode) (ctx : PaintContextOS) : WidgetNode :=
  updateData ctx.node (fun rd => { rd with parent_data := ⟨τ, v⟩ }) root

/-! ## Tree lemmas -/

theorem list_get?_set_self {α : Type _} (l : List α) (i : Nat) (x c : α)
    (h : l.get? i = some c) : (l.set i x).get? i = some x := by
  induction l generalizing i with
  | nil => simp at h
  | cons a t ih =>
    cases i with
    | zero => simp
    | succ j =>
      simp only [List.get?_cons_succ] at h
      simpa using ih j h

/-- Updating the render data at a path rewrites exactly that node's data and
keeps its child list; in particular the path stays valid. -/
theorem getNode_updateData (p : NodePath) (f : RenderData → RenderData)
    (t n : WidgetNode) (h : getNode p t = some n) :
    getNode p (updateData p f t) =
      some (WidgetNode.mk (f n.renderData) n.childList) := by
  induction p generalizing t with
  | nil =>
    cases t with
    | mk d cs =>
      simp only [getNode, Option.some.injEq] at h
      subst h
      simp [updateData, getNode, WidgetNode.renderData, WidgetNode.childList]
  | cons i p ih =>
    cases t with
    | mk d cs =>
      simp only [getNode] at h
      cases hc : cs.get? i with
      | none => rw [hc] at h; simp at h
      | some c =>
        rw [hc] at h
        simp only [updateData, hc, getNode,
          list_get?_set_self cs i (updateData p f c) c hc]
        exact ih c h

/-! ## Sample tree used to instantiate the theorems below -/

def sampleBox : AnyBox := ⟨TypeRep.tUnit, ()⟩

def rdLaidOut : RenderData :=
  { size := ⟨8, 6⟩, local_offset := ⟨0, 0⟩, laid_out := true,
    parent_data := sampleBox }

def rdNotLaidOut : RenderData :=
  { size := ⟨8, 6⟩, local_offset := ⟨0, 0⟩, laid_out := false,
    parent_data := sampleBox }

def leafA : WidgetNode := WidgetNode.mk rdLaidOut []

def leafB : WidgetNode := WidgetNode.mk rdNotLaidOut []

def sampleTree : WidgetNode := WidgetNode.mk rdLaidOut [leafA, leafB]

def sampleChildCtx : PaintContextOS :=
  { node := [0], offset := default, parent_offset := default }

/-! ## Alignment geometry theorems -/

/-- C7: `along` returns `Offset(width/2 + x·width/2, height/2 + y·height/2)`
for every alignment and size; `Alignment::CENTER.along(Size{w,h})` is
`Offset{w/2, h/2}` for all `w, h ≥ 0`; `Alignment::TOP_LEFT.along(Size{100,50})`
is `Offset{0,0}` and `Alignment::BOTTOM_RIGHT.along(Size{100,50})` is
`Offset{100,50}`. -/
theorem along_formula :
    (∀ (a : Alignment) (s : Size),
      a.along s = ⟨s.width / 2 + a.x * (s.width / 2),
                   s.height / 2 + a.y * (s.height / 2)⟩) ∧
    (∀ w h : ℚ, 0 ≤ w → 0 ≤ h →
      Alignment.CENTER.along ⟨w, h⟩ = ⟨w / 2, h / 2⟩) ∧
    Alignment.TOP_LEFT.along ⟨100, 50⟩ = ⟨0, 0⟩ ∧
    Alignment.BOTTOM_RIGHT.along ⟨100, 50⟩ = ⟨100, 50⟩ := by
  refine ⟨fun a s => rfl, fun w h _ _ => ?_, ?_, ?_⟩
  · simp [Alignment.along, Alignment.CENTER]
  · simp [Alignment.along, Alignment.TOP_LEFT, Offset.mk.injEq]
  · simp [Alignment.along, Alignment.BOTTOM_RIGHT, Offset.mk.injEq]

/-- Instantiation of `along_formula` at the concrete size 4 × 6, with the
nonnegativity hypotheses discharged. -/
theorem along_formula_witness :
    ((0:ℚ) ≤ 4 ∧ (0:ℚ) ≤ 6) ∧
    Alignment.CENTER.along ⟨4, 6⟩ = ⟨4 / 2, 6 / 2⟩ :=
  ⟨⟨by norm_num, by norm_num⟩,
   along_formula.2.1 4 6 (by norm_num) (by norm_num)⟩

/-- C8: resolving an `AlignmentDirectional{start, y}` keeps `start` as `x`
under left-to-right text direction and negates it under right-to-left; in
particular `CENTER_START` resolves to `Alignment{-1, 0}` under `Ltr` and to
`Alignment{1, 0}` under `Rtl`. -/
theorem resolve_directional_formula :
    (∀ a : AlignmentDirectional,
      a.resolve TextDirection.ltr = ⟨a.start, a.y⟩) ∧
    (∀ a : AlignmentDirectional,
      a.resolve TextDirection.rtl = ⟨-a.start, a.y⟩) ∧
    AlignmentDirectional.CENTER_START.resolve TextDirection.ltr = ⟨-1, 0⟩ ∧
    AlignmentDirectional.CENTER_START.resolve TextDirection.rtl = ⟨1, 0⟩ := by
  refine ⟨fun a => rfl, fun a => rfl, rfl, ?_⟩
  simp [AlignmentDirectional.resolve, AlignmentDirectional.CENTER_START]

/-- The componentwise `Add` instance of `Alignment`, stated on records. -/
theorem Alignment.add_def (a b : Alignment) : a + b = ⟨a.x + b.x, a.y + b.y⟩ :=
  rfl

/-- The componentwise `Sub` instance of `Alignment`, stated on records. -/
theorem Alignment.sub_def (a b : Alignment) : a - b = ⟨a.x - b.x, a.y - b.y⟩ :=
  rfl

/-- The componentwise `Neg` instance of `Alignment`, stated on records. -/
theorem Alignment.neg_def (a : Alignment) : -a = ⟨-a.x, -a.y⟩ := rfl

/-- C9: componentwise add, subtract and negate make `Alignment` an abelian
group: addition commutes and associates, `Alignment{0,0}` is the identity,
`-a` is the inverse of `a`, and `(a + b) - b = a` exactly. -/
theorem alignment_group_laws (a b c : Alignment) :
    a + b = b + a ∧
    (a + b) + c = a + (b + c) ∧
    a + (⟨0, 0⟩ : Alignment) = a ∧
    (⟨0, 0⟩ : Alignment) + a = a ∧
    a + (-a) = (⟨0, 0⟩ : Alignment) ∧
    (a + b) - b = a := by
  obtain ⟨ax, ay⟩ := a
  obtain ⟨bx, by'⟩ := b
  obtain ⟨cx, cy⟩ := c
  refine ⟨?_, ?_, ?_, ?_, ?_, ?_⟩ <;>
    simp only [Alignment.add_def, Alignment.sub_def, Alignment.neg_def,
      Alignment.mk.injEq] <;>
    constructor <;> ring

/-- C10: resolving a plain `Alignment` is the identity, independent of the
text direction argument. -/
theorem alignment_resolve_identity (a : Alignment) (d : TextDirection) :
    a.resolve d = a := rfl

/-! ## Paint-context theorems -/

/-- C1: for a context bound to a live node, `paint` fails fatally — with the
source's diagnostic — exactly when the node's `laid_out` flag is false; when
the flag is true it succeeds, recording the absolute offset in the context
and writing `local_offset = offset - parent_offset` into the node's render
data. -/
theorem paint_fails_iff_not_laid_out (root : WidgetNode)
    (ctx : PaintContextOS) (piet : Canvas) (off : Offset) (n : WidgetNode)
    (h : getNode ctx.node root = some n) :
    ((∃ msg, PaintContextOS.paint root ctx piet off = Except.error msg) ↔
      n.renderData.laid_out = false) ∧
    (n.renderData.laid_out = false →
      PaintContextOS.paint root ctx piet off =
        Except.error "child was not laid out before paint") ∧
    (n.renderData.laid_out = true →
      ∃ root', PaintContextOS.paint root ctx piet off =
          Except.ok (root', { ctx with offset := off }) ∧
        getNode ctx.node root' =
          some (WidgetNode.mk
            { n.renderData with local_offset := off - ctx.parent_offset }
            n.childList)) := by
  have hp : PaintContextOS.paint root ctx piet off =
      if n.renderData.laid_out = true then
        Except.ok (updateData ctx.node
            (fun rd => { rd with local_offset := off - ctx.parent_offset })
            root,
          { ctx with offset := off })
      else Except.error "child was not laid out before paint" := by
    unfold PaintContextOS.paint
    rw [h]
  rw [hp]
  cases hl : n.renderData.laid_out with
  | false => simp
  | true =>
    rw [if_pos rfl]
    exact ⟨by simp, by simp, fun _ =>
      ⟨_, rfl, getNode_updateData ctx.node _ root n h⟩⟩

/-- Instantiation of C1 at the sample tree: the root is laid out, so `paint`
does not fail there. -/
theorem paint_fails_iff_not_laid_out_witness :
    getNode [] sampleTree = some sampleTree ∧
    ((∃ msg, PaintContextOS.paint sampleTree (PaintContextOS.new []) ⟨⟩
        ⟨3, 4⟩ = Except.error msg) ↔
      sampleTree.renderData.laid_out = false) :=
  ⟨rfl, (paint_fails_iff_not_laid_out sampleTree (PaintContextOS.new []) ⟨⟩
      ⟨3, 4⟩ sampleTree rfl).1⟩

/-- A successful `try_child` yields exactly the context bound to child
`index`, with a zero-initialized `offset` cell and `parent_offset` copied
from the deriving context's current `offset`. -/
theorem tryChild_eq_some (root : WidgetNode) (ctx : PaintContextOS)
    (index : Nat) (c : PaintContextOS)
    (h : PaintContextOS.tryChild root ctx index = some c) :
    c = { node := ctx.node ++ [index], offset := default,
          parent_offset := ctx.offset } := by
  unfold PaintContextOS.tryChild at h
  rcases hg : getNode ctx.node root with _ | n
  · rw [hg] at h
    simp at h
  · rw [hg] at h
    simp only [Option.some_bind, Option.map_eq_some'] at h
    obtain ⟨m, _, hmc⟩ := h
    exact hmc.symm

/-- `paint` on a laid-out node: the success equation. -/
theorem paint_ok (root : WidgetNode) (ctx : PaintContextOS) (piet : Canvas)
    (off : Offset) (n : WidgetNode) (h : getNode ctx.node root = some n)
    (hl : n.renderData.laid_out = true) :
    PaintContextOS.paint root ctx piet off =
      Except.ok (updateData ctx.node
          (fun rd => { rd with local_offset := off - ctx.parent_offset })
          root,
        { ctx with offset := off }) := by
  unfold PaintContextOS.paint
  rw [h]
  simp [hl]

/-- C2: a child context derived from a context whose `offset` is `O`
carries `parent_offset = O` (both for `try_child` derivation and for every
element of `children`); painting that child at absolute offset `O2` stores
`local_offset = O2 − O` in the child node, and painting again at `O3`
recomputes it to `O3 − O` — the value is recomputed on every paint, never
left stale. -/
theorem child_paint_local_offset (root : WidgetNode)
    (ctx cctx : PaintContextOS) (i : Nat) (piet : Canvas) (o2 o3 : Offset)
    (cn : WidgetNode)
    (hd : PaintContextOS.tryChild root ctx i = some cctx)
    (hn : getNode cctx.node root = some cn)
    (hl : cn.renderData.laid_out = true) :
    cctx.parent_offset = ctx.offset ∧
    (∀ c ∈ PaintContextOS.children root ctx, c.parent_offset = ctx.offset) ∧
    (∃ root1 cctx1,
      PaintContextOS.paint root cctx piet o2 = Except.ok (root1, cctx1) ∧
      (getNode cctx.node root1).map (fun m => m.renderData.local_offset) =
        some (o2 - ctx.offset) ∧
      ∃ root2 cctx2,
        PaintContextOS.paint root1 cctx1 piet o3 =
          Except.ok (root2, cctx2) ∧
        (getNode cctx.node root2).map (fun m => m.renderData.local_offset) =
          some (o3 - ctx.offset)) := by
  have hpo : cctx.parent_offset = ctx.offset := by
    rw [tryChild_eq_some root ctx i cctx hd]
  refine ⟨hpo, ?_, ?_⟩
  · intro c hc
    unfold PaintContextOS.children at hc
    rcases hg : getNode ctx.node root with _ | m
    · rw [hg] at hc
      simp at hc
    · rw [hg] at hc
      simp only [List.mem_map] at hc
      obtain ⟨j, _, hj⟩ := hc
      rw [← hj]
  · have hg1 := getNode_updateData cctx.node
      (fun rd => { rd with local_offset := o2 - cctx.parent_offset }) root
      cn hn
    have hl1 : (WidgetNode.mk
        { cn.renderData with local_offset := o2 - cctx.parent_offset }
        cn.childList).renderData.laid_out = true := by
      simpa [WidgetNode.renderData] using hl
    refine ⟨updateData cctx.node
        (fun rd => { rd with local_offset := o2 - cctx.parent_offset }) root,
      { cctx with offset := o2 },
      paint_ok root cctx piet o2 cn hn hl, ?_, ?_⟩
    · rw [hg1]
      simp [WidgetNode.renderData, hpo]
    · have hg2 := getNode_updateData cctx.node
        (fun rd => { rd with local_offset := o3 - cctx.parent_offset })
        (updateData cctx.node
          (fun rd => { rd with local_offset := o2 - cctx.parent_offset })
          root)
        (WidgetNode.mk
          { cn.renderData with local_offset := o2 - cctx.parent_offset }
          cn.childList)
        hg1
      refine ⟨updateData cctx.node
          (fun rd => { rd with local_offset := o3 - cctx.parent_offset })
          (updateData cctx.node
            (fun rd => { rd with local_offset := o2 - cctx.parent_offset })
            root),
        { cctx with offset := o3 },
        paint_ok _ { cctx with offset := o2 } piet o3 _ hg1 hl1, ?_⟩
      rw [hg2]
      simp [WidgetNode.renderData, hpo]

/-- Instantiation of C2 at the sample tree: deriving child 0 copies the
parent's current offset into the child's `parent_offset`. -/
theorem child_paint_local_offset_witness :
    (PaintContextOS.tryChild sampleTree (PaintContextOS.new []) 0 =
      some sampleChildCtx) ∧
    sampleChildCtx.parent_offset = (PaintContextOS.new []).offset :=
  ⟨rfl, (child_paint_local_offset sampleTree (PaintContextOS.new [])
      sampleChildCtx 0 ⟨⟩ ⟨5, 7⟩ ⟨9, 1⟩ leafA rfl rfl rfl).1⟩

/-- C3: access to a node's shared `RenderData` follows the runtime-checked
borrow discipline: a shared view can be acquired exactly when no exclusive
view is outstanding (so any number of shared views may coexist), an
exclusive view exactly when no view at all is outstanding, and a violating
acquisition fails fatally at the point of violation; in particular the
exclusive parent-data accessor fails fatally whenever any view is
outstanding, while the shared accessor succeeds whenever no exclusive view
is outstanding and returns the checked downcast of the slot. -/
theorem render_data_borrow_discipline :
    (∀ s : BorrowState,
      (∃ s1, s.acquireShared = Except.ok s1) ↔
        s.exclusiveOutstanding = false) ∧
    (∀ s : BorrowState,
      (∃ s1, s.acquireExclusive = Except.ok s1) ↔ s.viewsOutstanding = 0) ∧
    (∀ s : BorrowState, s.exclusiveOutstanding = true →
      ∃ msg, s.acquireShared = Except.error msg) ∧
    (∀ s : BorrowState, s.viewsOutstanding ≠ 0 →
      ∃ msg, s.acquireExclusive = Except.error msg) ∧
    (∀ (τ : TypeRep) (root : WidgetNode) (ctx : PaintContextOS)
        (s : BorrowState), s.viewsOutstanding ≠ 0 →
      ∃ msg, PaintContextOS.tryParentDataMut τ root ctx s =
        Except.error msg) ∧
    (∀ (τ : TypeRep) (root : WidgetNode) (ctx : PaintContextOS)
        (s : BorrowState) (n : WidgetNode),
      getNode ctx.node root = some n → s.exclusiveOutstanding = false →
      PaintContextOS.tryParentDataShared τ root ctx s =
        Except.ok (n.renderData.parent_data.downcast τ)) := by
  refine ⟨?_, ?_, ?_, ?_, ?_, ?_⟩
  · intro s
    cases s <;>
      simp [BorrowState.acquireShared, BorrowState.exclusiveOutstanding]
  · intro s
    cases s <;>
      simp [BorrowState.acquireExclusive, BorrowState.viewsOutstanding]
  · intro s h
    cases s <;>
      simp_all [BorrowState.acquireShared, BorrowState.exclusiveOutstanding]
  · intro s h
    cases s <;>
      simp_all [BorrowState.acquireExclusive, BorrowState.viewsOutstanding]
  · intro τ root ctx s h
    cases s with
    | free => simp [BorrowState.viewsOutstanding] at h
    | shared n => exact ⟨"already borrowed", rfl⟩
    | exclusive => exact ⟨"already borrowed", rfl⟩
  · intro τ root ctx s n hn hs
    obtain ⟨s1, hs1⟩ : ∃ s1, s.acquireShared = Except.ok s1 := by
      cases s <;>
        simp_all [BorrowState.acquireShared, BorrowState.exclusiveOutstanding]
    rcases hdc : n.renderData.parent_data.downcast τ with _ | v <;>
      simp [PaintContextOS.tryParentDataShared, hs1, hn, hdc, Bind.bind,
        Except.bind]

/-- Instantiation of C3: with one shared view outstanding, the exclusive
parent-data accessor fails fatally. -/
theorem render_data_borrow_discipline_witness :
    (BorrowState.shared 0).viewsOutstanding ≠ 0 ∧
    ∃ msg, PaintContextOS.tryParentDataMut TypeRep.tInt sampleTree
        (PaintContextOS.new []) (BorrowState.shared 0) = Except.error msg :=
  ⟨by decide, render_data_borrow_discipline.2.2.2.2.1 TypeRep.tInt sampleTree
      (PaintContextOS.new []) (BorrowState.shared 0) (by decide)⟩

/-- C4 counterexample: the source declares `fn try_child` without a `pub`
qualifier, so `try_child` is private to its module — it is not exposed
publicly, contrary to the claim. -/
theorem try_child_not_public : ¬ (tryChildIsPublic = true) := by decide

/-- C4 (amended): `try_child(i)` returns `None` exactly when `i` is out of
range of the node's child list, and otherwise a context bound to child `i`
with `parent_offset` set to this context's current `offset` (and a
zero-initialized `offset`); `child(i)` is defined in terms of `try_child(i)`
and fails fatally — with the source's panic message — when `i` is out of
range; `try_child` is crate-private, not exposed publicly. -/
theorem try_child_and_child (root : WidgetNode) (ctx : PaintContextOS)
    (n : WidgetNode) (i : Nat) (h : getNode ctx.node root = some n) :
    (PaintContextOS.tryChild root ctx i = none ↔ n.childList.length ≤ i) ∧
    (∀ c, PaintContextOS.tryChild root ctx i = some c →
      c.node = ctx.node ++ [i] ∧ c.parent_offset = ctx.offset ∧
      c.offset = default) ∧
    (∀ c, PaintContextOS.tryChild root ctx i = some c →
      PaintContextOS.child root ctx i = Except.ok c) ∧
    (PaintContextOS.tryChild root ctx i = none →
      PaintContextOS.child root ctx i =
        Except.error "specified node didn't have any children") ∧
    tryChildIsPublic = false := by
  refine ⟨?_, ?_, ?_, ?_, rfl⟩
  · unfold PaintContextOS.tryChild
    rw [h]
    simp [Option.map_eq_none', List.get?_eq_none]
  · intro c hc
    rw [tryChild_eq_some root ctx i c hc]
    exact ⟨rfl, rfl, rfl⟩
  · intro c hc
    unfold PaintContextOS.child
    rw [hc]
  · intro hc
    unfold PaintContextOS.child
    rw [hc]

/-- Instantiation of the amended C4 at the sample tree: index 5 is out of
range of the root's two children, so `try_child` returns `None`. -/
theorem try_child_and_child_witness :
    getNode [] sampleTree = some sampleTree ∧
    (PaintContextOS.tryChild sampleTree (PaintContextOS.new []) 5 = none ↔
      sampleTree.childList.length ≤ 5) :=
  ⟨rfl, (try_child_and_child sampleTree (PaintContextOS.new []) sampleTree 5
      rfl).1⟩

/-- C5: `children()` yields exactly one context per child of the bound
node, in child order; element `i` is bound to child `i`, carries
`parent_offset` equal to this context's current `offset` and a
zero-initialized `offset`, and coincides with `try_child i`. The embedding
of `children` is a pure function of the tree and the context, so repeated
calls on an unchanged tree yield the same sequence and producing the
sequence mutates nothing. -/
theorem children_spec (root : WidgetNode) (ctx : PaintContextOS)
    (n : WidgetNode) (h : getNode ctx.node root = some n) :
    (PaintContextOS.children root ctx).length = n.childList.length ∧
    (∀ i, i < n.childList.length →
      (PaintContextOS.children root ctx).get? i =
        some { node := ctx.node ++ [i], offset := default,
               parent_offset := ctx.offset }) ∧
    (∀ i, i < n.childList.length →
      (PaintContextOS.children root ctx).get? i =
        PaintContextOS.tryChild root ctx i) := by
  have he : PaintContextOS.children root ctx =
      (List.range n.childList.length).map fun i =>
        { node := ctx.node ++ [i], offset := default,
          parent_offset := ctx.offset } := by
    unfold PaintContextOS.children
    rw [h]
  refine ⟨?_, ?_, ?_⟩
  · rw [he]
    simp
  · intro i hi
    rw [he]
    simp [List.getElem?_map, List.getElem?_range, hi]
  · intro i hi
    have hc := List.get?_eq_get (l := n.childList) hi
    rw [he]
    unfold PaintContextOS.tryChild
    rw [h]
    simp [List.getElem?_map, List.getElem?_range, hi, hc]

/-- Instantiation of C5 at the sample tree: the root has two children and
`children` yields two contexts. -/
theorem children_spec_witness :
    getNode [] sampleTree = some sampleTree ∧
    (PaintContextOS.children sampleTree (PaintContextOS.new [])).length =
      sampleTree.childList.length :=
  ⟨rfl, (children_spec sampleTree (PaintContextOS.new []) sampleTree rfl).1⟩

/-- C6: `set_parent_data::<T>(v)` overwrites the slot with `v` regardless of
what was stored before (the deriving context and prior slot contents are
universally quantified); the checked accessor at type `T` then returns `v`,
and at any type `U` with a different type identity it returns `None` — an
empty result, not a fatal failure. -/
theorem parent_data_roundtrip (τ υ : TypeRep) (v : τ.interp)
    (root : WidgetNode) (ctx : PaintContextOS) (n : WidgetNode)
    (h : getNode ctx.node root = some n) (hne : υ ≠ τ) :
    PaintContextOS.tryParentData τ
      (PaintContextOS.setParentData τ v root ctx) ctx = some v ∧
    PaintContextOS.tryParentData υ
      (PaintContextOS.setParentData τ v root ctx) ctx = none := by
  have hg := getNode_updateData ctx.node
    (fun rd => { rd with parent_data := ⟨τ, v⟩ }) root n h
  unfold PaintContextOS.tryParentData PaintContextOS.setParentData
  rw [hg]
  constructor
  · simp [WidgetNode.renderData, AnyBox.downcast]
  · simp [WidgetNode.renderData, AnyBox.downcast, hne.symm]

/-- Instantiation of C6 at the sample tree: storing `42: i64` and reading it
back at `i64` returns 42; reading at `bool` returns `None`. -/
theorem parent_data_roundtrip_witness :
    (getNode [] sampleTree = some sampleTree ∧
      TypeRep.tBool ≠ TypeRep.tInt) ∧
    (PaintContextOS.tryParentData TypeRep.tInt
        (PaintContextOS.setParentData TypeRep.tInt 42 sampleTree
          (PaintContextOS.new [])) (PaintContextOS.new []) = some 42 ∧
      PaintContextOS.tryParentData TypeRep.tBool
        (PaintContextOS.setParentData TypeRep.tInt 42 sampleTree
          (PaintContextOS.new [])) (PaintContextOS.new []) = none) :=
  ⟨⟨rfl, by decide⟩, parent_data_roundtrip TypeRep.tInt TypeRep.tBool 42
      sampleTree (PaintContextOS.new []) sampleTree rfl (by decide)⟩

end Frui
